import Mathlib

/-!
# Verification of the MarketBytes news ingestion and market-data services

Shallow embedding, in Lean 4, of the parts of the MarketBytes repository that
the specification's claims are about:

* `NewsService` (RSS ingestion pipeline): URL normalization, in-batch
  deduplication, per-item duplicate-skip against the store, and the
  `{fetched, processed, failed}` run statistics.
* `OpenAIService`: the quota cool-down state machine, the text cleaner
  `removeUrlsFromText`, and the deterministic fallback enrichment
  `getFallbackProcessing` with its ticker/sector extractors.
* `MemStorage`: article store, display-time summary cleaning, search, and
  watchlist removal.
* `MarketDataService`: the TTL snapshot cache and its static fallback.

Modelling conventions:

* Timestamps (ISO strings / `Date.now()` millisecond clocks in the source) are
  modelled as `Nat` millisecond values.  JavaScript computes `now - last` on
  signed numbers and compares `< window`; with `Nat` truncated subtraction the
  comparison takes the same truth value whenever `now < last` (both give a
  value `< window`), so the guard semantics coincide.
* `randomUUID()` is modelled as a fresh counter derived from the store size;
  no claim depends on the shape of ids.
* JavaScript's `Array.prototype.sort` is stable (ES2019); with a consistent
  comparator its output is uniquely determined, and it is modelled by the
  structural stable sort `jsSort`.
* `String.prototype.includes` is modelled by `jsIncludes` (substring test on
  the character list); `split`, `toLowerCase`, `trim` and friends by the
  character-level functions `jsSplitChar`, `jsToLower`, `jsTrim`, which keep
  JavaScript semantics (`"".split(' ')` is `[""]`; `"a  b".split(' ')` keeps
  the empty middle fragment).
-/

/-! ## Generic string helpers (JavaScript string primitives) -/

/-- `startsWithList needle hay`: `hay` begins with `needle`. -/
def startsWithList : List Char → List Char → Bool
  | [], _ => true
  | _ :: _, [] => false
  | a :: as, b :: bs => a == b && startsWithList as bs

/-- `containsList needle hay`: `needle` occurs as a contiguous sublist of
`hay`.  Model of JavaScript `String.prototype.includes`. -/
def containsList (needle : List Char) : List Char → Bool
  | [] => needle.isEmpty
  | b :: bs => startsWithList needle (b :: bs) || containsList needle bs

/-- JavaScript `s.includes(sub)`. -/
def jsIncludes (s sub : String) : Bool :=
  containsList sub.toList s.toList

/-- First occurrence split: `splitAtSubstr pat l = some (pre, post)` when
`l = pre ++ pat ++ post` at the first occurrence of `pat`. -/
def splitAtSubstr (pat : List Char) : List Char → Option (List Char × List Char)
  | [] => if pat.isEmpty then some ([], []) else none
  | c :: rest =>
    if startsWithList pat (c :: rest) then some ([], (c :: rest).drop pat.length)
    else
      match splitAtSubstr pat rest with
      | some (pre, post) => some (c :: pre, post)
      | none => none

/-! ## Deduplication by string key (JavaScript `Set`-based filters)

Both `NewsService.deduplicateArticles` and the ticker deduplication in
`OpenAIService.extractTickersFromText` filter a list through a `Set<string>`
of already-seen keys, keeping the first occurrence of each key.  `dedupByAux`
is that loop with the seen-set made explicit. -/

def dedupByAux {α : Type} (key : α → String) (seen : List String) : List α → List α
  | [] => []
  | a :: rest =>
    if key a ∈ seen then dedupByAux key seen rest
    else a :: dedupByAux key (key a :: seen) rest

theorem dedupByAux_find {α : Type} (key : α → String) (seen : List String)
    (l : List α) (a : α) (h : a ∈ dedupByAux key seen l) :
    key a ∉ seen ∧ l.find? (fun b => key b == key a) = some a := by
  induction l generalizing seen with
  | nil => simp [dedupByAux] at h
  | cons x rest ih =>
    by_cases hx : key x ∈ seen
    · rw [dedupByAux, if_pos hx] at h
      obtain ⟨hns, hf⟩ := ih seen h
      refine ⟨hns, ?_⟩
      have hne : ¬ (key x == key a) = true := by
        simp only [beq_iff_eq]
        intro he
        exact hns (he ▸ hx)
      rw [List.find?_cons_of_neg (p := fun b => key b == key a) rest hne]
      exact hf
    · rw [dedupByAux, if_neg hx] at h
      rcases List.mem_cons.mp h with h | h
      · subst h
        exact ⟨hx, List.find?_cons_of_pos (p := fun b => key b == key a) rest (by simp)⟩
      · obtain ⟨hns, hf⟩ := ih (key x :: seen) h
        have hxa : ¬ (key x == key a) = true := by
          simp only [beq_iff_eq]
          intro he
          exact hns (by simp [he])
        refine ⟨fun hmem => hns (List.mem_cons_of_mem _ hmem), ?_⟩
        rw [List.find?_cons_of_neg (p := fun b => key b == key a) rest hxa]
        exact hf

theorem dedupByAux_nodup {α : Type} (key : α → String) (seen : List String)
    (l : List α) : ((dedupByAux key seen l).map key).Nodup := by
  induction l generalizing seen with
  | nil => simp [dedupByAux]
  | cons x rest ih =>
    by_cases hx : key x ∈ seen
    · rw [dedupByAux, if_pos hx]
      exact ih seen
    · rw [dedupByAux, if_neg hx]
      simp only [List.map_cons, List.nodup_cons]
      refine ⟨?_, ih (key x :: seen)⟩
      simp only [List.mem_map]
      rintro ⟨b, hb, hkb⟩
      have := (dedupByAux_find key _ rest b hb).1
      exact this (by simp [hkb])

/-! ## `RawNewsItem` and URL normalization (`src NewsService`) -/

/-- `RawNewsItem` from `newsService`.  The nested `source: { name }` object is
flattened to `sourceName`; `publishedAt` (an ISO date string in the source,
always consumed through `new Date(...).getTime()`) is modelled as a `Nat`
millisecond timestamp. -/
structure RawNewsItem where
  title : String
  description : String
  url : String
  urlToImage : Option String
  publishedAt : Nat
  sourceName : String
deriving DecidableEq

/-- Characters allowed in a URL scheme after the leading letter. -/
def isSchemeChar (c : Char) : Bool :=
  c.isAlphanum || c == '+' || c == '-' || c == '.'

/-- `NewsService.normalizeUrl`: build `new URL(url)` and return
`protocol + "//" + host + pathname` (query string and fragment stripped),
returning the input unchanged when URL parsing fails.  The WHATWG `URL`
parser is modelled by its effect on `scheme://host/path?query#fragment`
inputs: scheme and host are lower-cased, the path defaults to `/`, and a
string without a well-formed `scheme://host` part is treated as a parse
failure. -/
def normalizeUrl (url : String) : String :=
  match splitAtSubstr "://".toList url.toList with
  | none => url
  | some (schemeChars, rest) =>
    if !schemeChars.isEmpty && (schemeChars.headD 'x').isAlpha
        && schemeChars.all isSchemeChar then
      let host := rest.takeWhile (fun c => c != '/' && c != '?' && c != '#')
      if host.isEmpty then url
      else
        let afterHost := rest.drop host.length
        let path := afterHost.takeWhile (fun c => c != '?' && c != '#')
        let path := if path.isEmpty then ['/'] else path
        String.mk (schemeChars.map Char.toLower) ++ "://"
          ++ String.mk (host.map Char.toLower) ++ String.mk path
    else url

/-- `NewsService.deduplicateArticles`: keep the first item per normalized
URL, tracked through a `Set<string>` of seen keys. -/
def deduplicateArticles (articles : List RawNewsItem) : List RawNewsItem :=
  dedupByAux (fun a => normalizeUrl a.url) [] articles

example : normalizeUrl "HTTPS://Example.com/a/b?q=1#frag" = "https://example.com/a/b" := by
  decide

example : normalizeUrl "not a url" = "not a url" := by decide

/-- C2: `deduplicateArticles` keeps at most one item per distinct normalized
URL (the mapped keys of the output are pairwise distinct), and the item kept
for each normalized URL is the first occurrence in input order (`find?` on
the input by that key returns exactly the kept item). -/
theorem deduplicateArticles_unique_first (l : List RawNewsItem) :
    ((deduplicateArticles l).map (fun a => normalizeUrl a.url)).Nodup ∧
    ∀ a ∈ deduplicateArticles l,
      l.find? (fun b => normalizeUrl b.url == normalizeUrl a.url) = some a := by
  refine ⟨dedupByAux_nodup _ [] l, fun a ha => (dedupByAux_find _ [] l a ha).2⟩

/-- Demo items for the C2 witness. -/
def rawItemA : RawNewsItem :=
  ⟨"t1", "d1", "https://example.com/a?x=1", none, 5, "S"⟩

def rawItemA2 : RawNewsItem :=
  ⟨"t2", "d2", "https://example.com/a#frag", none, 4, "S"⟩

def rawItemB : RawNewsItem :=
  ⟨"t3", "d3", "https://example.com/b", none, 3, "S"⟩

/-- Witness for C2 at a concrete input: the second spelling of
`https://example.com/a` is dropped, `rawItemA` is the kept first occurrence. -/
theorem deduplicateArticles_unique_first_witness :
    ((deduplicateArticles [rawItemA, rawItemA2, rawItemB]).map
        (fun a => normalizeUrl a.url)).Nodup ∧
      [rawItemA, rawItemA2, rawItemB].find?
        (fun b => normalizeUrl b.url == normalizeUrl rawItemA.url) = some rawItemA :=
  ⟨(deduplicateArticles_unique_first [rawItemA, rawItemA2, rawItemB]).1,
    (deduplicateArticles_unique_first [rawItemA, rawItemA2, rawItemB]).2 rawItemA
      (by decide)⟩

/-! ## A stable sort modelling JavaScript `Array.prototype.sort`

`Array.prototype.sort` with a consistent comparator is a stable sort
(ES2019), so its output is uniquely determined: any stable sorting algorithm
models it.  A structural insertion sort is used so that concrete runs reduce
definitionally. -/

def jsInsert {α : Type} (le : α → α → Bool) (x : α) : List α → List α
  | [] => [x]
  | y :: l => if le x y then x :: y :: l else y :: jsInsert le x l

/-- Stable sort: ties keep their original relative order. -/
def jsSort {α : Type} (le : α → α → Bool) : List α → List α
  | [] => []
  | x :: l => jsInsert le x (jsSort le l)

theorem jsInsert_perm {α : Type} (le : α → α → Bool) (x : α) (l : List α) :
    (jsInsert le x l).Perm (x :: l) := by
  induction l with
  | nil => simp [jsInsert]
  | cons y l ih =>
    rw [jsInsert]
    by_cases h : le x y = true
    · rw [if_pos h]
    · rw [if_neg h]
      exact (ih.cons y).trans (List.Perm.swap x y l)

theorem jsSort_perm {α : Type} (le : α → α → Bool) (l : List α) :
    (jsSort le l).Perm l := by
  induction l with
  | nil => simp [jsSort]
  | cons x l ih =>
    exact (jsInsert_perm le x (jsSort le l)).trans (ih.cons x)

theorem length_jsSort {α : Type} (le : α → α → Bool) (l : List α) :
    (jsSort le l).length = l.length :=
  (jsSort_perm le l).length_eq

theorem mem_jsSort {α : Type} {le : α → α → Bool} {a : α} {l : List α} :
    a ∈ jsSort le l ↔ a ∈ l :=
  (jsSort_perm le l).mem_iff

/-! ## Article store (`MemStorage`) and ingestion (`NewsService`) -/

/-- Persisted `NewsArticle` (shared schema).  `timestamp` is the millisecond
publication time. -/
structure NewsArticle where
  id : Nat
  headline : String
  summary : String
  sourceUrl : String
  imageUrl : Option String
  source : String
  timestamp : Nat
  tags : List String
  tickers : List String
  sectors : List String
  isProcessed : Bool
deriving DecidableEq

/-- `InsertNewsArticle` as supplied by `processAndStoreArticle`, which always
provides every field, so the `?? default` coalescing in `createNewsArticle`
is absorbed. -/
structure InsertNewsArticle where
  headline : String
  summary : String
  sourceUrl : String
  imageUrl : Option String
  source : String
  tags : List String
  tickers : List String
  sectors : List String
  isProcessed : Bool
deriving DecidableEq

/-- The `newsArticles : Map<string, NewsArticle>` of `MemStorage`, as its
insertion-ordered value list. -/
abbrev NewsStore := List NewsArticle

/-- The comparator of `getNewsArticles`: newest first
(`(a, b) => b.timestamp - a.timestamp`, stable). -/
def byTimestampDesc (a b : NewsArticle) : Bool :=
  b.timestamp ≤ a.timestamp

/-- `MemStorage.getNewsArticles(limit = 20, offset = 0)`: sort by timestamp
descending, then `slice(offset, offset + limit)`.  (One storage variant also
re-cleans summaries for display; that touches only the `summary` field and is
modelled separately by `cleanSummaryForDisplay`.) -/
def getNewsArticles (store : NewsStore) (limit offset : Nat) : List NewsArticle :=
  ((jsSort byTimestampDesc store).drop offset).take limit

/-- `MemStorage.createNewsArticle`: generate an id, default the nullable
fields, timestamp from `publishedAt`, and insert into the map (appended in
insertion order).  `randomUUID()` is modelled as the store size. -/
def createNewsArticle (store : NewsStore) (a : InsertNewsArticle)
    (publishedAt : Nat) : NewsArticle × NewsStore :=
  let article : NewsArticle :=
    { id := store.length, headline := a.headline, summary := a.summary,
      sourceUrl := a.sourceUrl, imageUrl := a.imageUrl, source := a.source,
      timestamp := publishedAt, tags := a.tags, tickers := a.tickers,
      sectors := a.sectors, isProcessed := a.isProcessed }
  (article, store ++ [article])

/-- `ProcessedNews` (enrichment result shape). -/
structure ProcessedNews where
  headline : String
  summary : String
  tickers : List String
  sectors : List String
  tags : List String
deriving DecidableEq

/-- `NewsService.processAndStoreArticle`.  The external call
`openaiService.processNewsArticle` is abstracted by the oracle
`ai : RawNewsItem → Option ProcessedNews` (`some p` = the call returned `p`,
`none` = it threw and the basic-data fallback is stored).  Returns the
source's `{success, skipped}` pair together with the updated store.  Note the
existence check calls `storage.getNewsArticles()` with its default
`limit = 20, offset = 0`. -/
def processAndStoreArticle (ai : RawNewsItem → Option ProcessedNews)
    (store : NewsStore) (rawArticle : RawNewsItem) : (Bool × Bool) × NewsStore :=
  let existingArticles := getNewsArticles store 20 0
  if existingArticles.any (fun e => e.sourceUrl == rawArticle.url) then
    ((false, true), store)
  else
    let pn : ProcessedNews × Bool :=
      match ai rawArticle with
      | some p => (p, true)
      | none =>
        ({ headline := rawArticle.title,
           summary := if rawArticle.description == "" then
               "Article summary not available - processing will be retried later."
             else rawArticle.description,
           tags := [], tickers := [], sectors := [] }, false)
    let articleData : InsertNewsArticle :=
      { headline := pn.1.headline, summary := pn.1.summary,
        sourceUrl := rawArticle.url, imageUrl := rawArticle.urlToImage,
        source := rawArticle.sourceName, tags := pn.1.tags,
        tickers := pn.1.tickers, sectors := pn.1.sectors,
        isProcessed := pn.2 }
    ((pn.2, false), (createNewsArticle store articleData rawArticle.publishedAt).2)

/-- A sequence of `processAndStoreArticle` calls (the per-item step of
ingestion runs), starting from a given store. -/
def runIngest (ai : RawNewsItem → Option ProcessedNews) (store : NewsStore)
    (raws : List RawNewsItem) : NewsStore :=
  raws.foldl (fun s r => (processAndStoreArticle ai s r).2) store

/-- C1 failing trace: 21 articles with distinct URLs are ingested (the one
with URL `…/dup` has the oldest timestamp), then an item with URL `…/dup`
arrives again.  The duplicate check looks only at the 20 newest stored
articles, misses the old one, and stores a second article with the same
`sourceUrl`. -/
def c1Trace : List RawNewsItem :=
  ⟨"t0", "d0", "https://ex.com/dup", none, 0, "S"⟩ ::
    ((List.range 20).map
        (fun i => ⟨"t", "d", "https://ex.com/" ++ toString (i + 1), none, i + 1, "S"⟩)
      ++ [⟨"t21", "d21", "https://ex.com/dup", none, 21, "S"⟩])

/-- C1 (refuting the claim on the code): after the `c1Trace` sequence of
ingestion steps starting from the empty store, the store holds two articles
with `sourceUrl = "https://ex.com/dup"`, so the stored `sourceUrl`s are not
unique.  The existence check of `processAndStoreArticle` consults
`getNewsArticles()` with its default limit of 20 and therefore misses
duplicates that are not among the 20 newest stored articles. -/
theorem sourceUrl_uniqueness_violated :
    ¬ (((runIngest (fun _ => none) [] c1Trace).map (fun a => a.sourceUrl)).Nodup) ∧
    ((runIngest (fun _ => none) [] c1Trace).filter
        (fun a => a.sourceUrl == "https://ex.com/dup")).length = 2 := by
  constructor
  · decide
  · decide

/-! ## Ingestion run statistics (`NewsService.fetchLatestNews`, C3) -/

/-- Run statistics `{fetched, processed, failed}`. -/
structure FetchStats where
  fetched : Nat
  processed : Nat
  failed : Nat
deriving DecidableEq

/-- The priority-batch loop of `fetchLatestNews`: run
`processAndStoreArticle` on each item; `result.success` increments
`processed`, `result.skipped` increments neither counter, anything else
increments `failed`. -/
def quickBatchLoop (ai : RawNewsItem → Option ProcessedNews) :
    NewsStore → List RawNewsItem → Nat × Nat × NewsStore
  | store, [] => (0, 0, store)
  | store, r :: rest =>
    let step := processAndStoreArticle ai store r
    let rec' := quickBatchLoop ai step.2 rest
    if step.1.1 then (rec'.1 + 1, rec'.2.1, rec'.2.2)
    else if step.1.2 then rec'
    else (rec'.1, rec'.2.1 + 1, rec'.2.2)

/-- The merged candidate list of a run: dedupe by normalized URL, sort by
publication date descending, take the 50 most recent. -/
def recentArticlesOf (allArticles : List RawNewsItem) : List RawNewsItem :=
  (jsSort (fun a b => b.publishedAt ≤ a.publishedAt)
    (deduplicateArticles allArticles)).take 50

/-- `NewsService.fetchLatestNews` from the point where the parallel feed
fetches have been merged into `allArticles` (the network stage is external
I/O).  A run with no candidates reports `{0, 0, 0}`; otherwise the first 3
items are processed synchronously and `fetched` is the candidate count.  The
background processing of the remaining items starts only after these stats
are computed and cannot change them, so it is not part of this function. -/
def fetchLatestNewsStats (ai : RawNewsItem → Option ProcessedNews)
    (store : NewsStore) (allArticles : List RawNewsItem) : FetchStats :=
  let recent := recentArticlesOf allArticles
  if recent.isEmpty then ⟨0, 0, 0⟩
  else
    let res := quickBatchLoop ai store (recent.take 3)
    ⟨recent.length, res.1, res.2.1⟩

/-- Specification-side counters for the batch: simulating the same store
evolution, count the items that hit the duplicate-skip path (`.1`), the
non-duplicate items whose enrichment succeeded (`.2.1`), and the
non-duplicate items whose enrichment failed (`.2.2`). -/
def batchCounts (ai : RawNewsItem → Option ProcessedNews) :
    NewsStore → List RawNewsItem → Nat × Nat × Nat
  | _, [] => (0, 0, 0)
  | store, r :: rest =>
    let isDup := (getNewsArticles store 20 0).any (fun e => e.sourceUrl == r.url)
    let rec' := batchCounts ai (processAndStoreArticle ai store r).2 rest
    if isDup then (rec'.1 + 1, rec'.2.1, rec'.2.2)
    else
      match ai r with
      | some _ => (rec'.1, rec'.2.1 + 1, rec'.2.2)
      | none => (rec'.1, rec'.2.1, rec'.2.2 + 1)

theorem quickBatchLoop_eq_batchCounts (ai : RawNewsItem → Option ProcessedNews)
    (store : NewsStore) (batch : List RawNewsItem) :
    (quickBatchLoop ai store batch).1 = (batchCounts ai store batch).2.1 ∧
    (quickBatchLoop ai store batch).2.1 = (batchCounts ai store batch).2.2 ∧
    (quickBatchLoop ai store batch).1 + (quickBatchLoop ai store batch).2.1
      + (batchCounts ai store batch).1 = batch.length := by
  induction batch generalizing store with
  | nil => simp [quickBatchLoop, batchCounts]
  | cons r rest ih =>
    by_cases hdup :
        ((getNewsArticles store 20 0).any (fun e => e.sourceUrl == r.url)) = true
    · have hstep : processAndStoreArticle ai store r = ((false, true), store) := by
        unfold processAndStoreArticle
        rw [if_pos hdup]
      obtain ⟨h1, h2, h3⟩ := ih store
      simp only [quickBatchLoop, batchCounts, hstep, hdup, if_true,
        Bool.false_eq_true, if_false, List.length_cons]
      refine ⟨?_, ?_, ?_⟩ <;> omega
    · have hdupf : ((getNewsArticles store 20 0).any
          (fun e => e.sourceUrl == r.url)) = false := by
        simpa using hdup
      obtain ⟨h1, h2, h3⟩ := ih (processAndStoreArticle ai store r).2
      cases hai : ai r with
      | some p =>
        have hstep1 : (processAndStoreArticle ai store r).1 = (true, false) := by
          unfold processAndStoreArticle
          rw [if_neg hdup]
          simp [hai]
        simp only [quickBatchLoop, batchCounts, hstep1, hai, hdupf, if_true,
          Bool.false_eq_true, if_false, List.length_cons]
        refine ⟨?_, ?_, ?_⟩ <;> omega
      | none =>
        have hstep1 : (processAndStoreArticle ai store r).1 = (false, false) := by
          unfold processAndStoreArticle
          rw [if_neg hdup]
          simp [hai]
        simp only [quickBatchLoop, batchCounts, hstep1, hai, hdupf, if_true,
          Bool.false_eq_true, if_false, List.length_cons]
        refine ⟨?_, ?_, ?_⟩ <;> omega

/-- C3: for every ingestion run, the reported statistics satisfy
`processed + failed ≤ fetched`; moreover `processed` is exactly the number of
priority-batch items whose enrichment succeeded, `failed` is exactly the
number of priority-batch items that were not duplicates and whose enrichment
failed, and the duplicate-skipped items are counted in neither
(`processed + failed + skipped` exhausts the processed batch). -/
theorem fetchLatestNews_stats_spec (ai : RawNewsItem → Option ProcessedNews)
    (store : NewsStore) (allArticles : List RawNewsItem) :
    (fetchLatestNewsStats ai store allArticles).processed
        + (fetchLatestNewsStats ai store allArticles).failed
      ≤ (fetchLatestNewsStats ai store allArticles).fetched ∧
    (fetchLatestNewsStats ai store allArticles).processed
      = (batchCounts ai store ((recentArticlesOf allArticles).take 3)).2.1 ∧
    (fetchLatestNewsStats ai store allArticles).failed
      = (batchCounts ai store ((recentArticlesOf allArticles).take 3)).2.2 ∧
    (fetchLatestNewsStats ai store allArticles).processed
        + (fetchLatestNewsStats ai store allArticles).failed
        + (batchCounts ai store ((recentArticlesOf allArticles).take 3)).1
      = ((recentArticlesOf allArticles).take 3).length := by
  obtain ⟨h1, h2, h3⟩ :=
    quickBatchLoop_eq_batchCounts ai store ((recentArticlesOf allArticles).take 3)
  by_cases hemp : (recentArticlesOf allArticles).isEmpty = true
  · have hnil : recentArticlesOf allArticles = [] := by
      cases hr : recentArticlesOf allArticles with
      | nil => rfl
      | cons a l => rw [hr] at hemp; simp [List.isEmpty] at hemp
    simp [fetchLatestNewsStats, hnil, batchCounts]
  · have hlen3 : ((recentArticlesOf allArticles).take 3).length
        ≤ (recentArticlesOf allArticles).length :=
      List.length_take_le' 3 (recentArticlesOf allArticles)
    simp only [fetchLatestNewsStats, hemp, Bool.false_eq_true, if_false]
    exact ⟨by omega, h1, h2, by omega⟩

/-! ## Quota cool-down (`OpenAIService.processNewsArticle`, C4) -/

/-- The mutable fields of `OpenAIService` that control the cool-down. -/
structure OAIState where
  quotaExceeded : Bool
  lastQuotaCheck : Nat
deriving DecidableEq

/-- `QUOTA_RESET_INTERVAL = 30 * 60 * 1000` (30 minutes). -/
def QUOTA_RESET_INTERVAL : Nat := 30 * 60 * 1000

/-- Outcome of an attempted primary-path (external) call: success, an error
whose message does not mention quota (transient), or an error whose message
includes `exceeded your current quota`. -/
inductive PrimaryOutcome where
  | ok
  | transientError
  | quotaError
deriving DecidableEq

/-- Control skeleton of `OpenAIService.processNewsArticle` at clock `now`:
if the cool-down guard `quotaExceeded && now - lastQuotaCheck <
QUOTA_RESET_INTERVAL` holds, return the fallback without attempting the
external call (state untouched); otherwise attempt the primary path, whose
result is the oracle `outcome`.  Only a quota error mutates the state (sets
`quotaExceeded` and stamps `lastQuotaCheck`); a transient error merely falls
back for this call.  The returned `Bool` records whether the primary path was
attempted. -/
def processNewsArticle (st : OAIState) (now : Nat) (outcome : PrimaryOutcome) :
    Bool × OAIState :=
  if st.quotaExceeded && now - st.lastQuotaCheck < QUOTA_RESET_INTERVAL then
    (false, st)
  else
    match outcome with
    | .ok => (true, st)
    | .transientError => (true, st)
    | .quotaError => (true, { quotaExceeded := true, lastQuotaCheck := now })

/-- A sequence of calls, each with its clock value and primary outcome;
returns the attempted-flags in order and the final state. -/
def runCalls (st : OAIState) : List (Nat × PrimaryOutcome) → List Bool × OAIState
  | [] => ([], st)
  | (now, o) :: rest =>
    let step := processNewsArticle st now o
    let rec' := runCalls step.2 rest
    (step.1 :: rec'.1, rec'.2)

/-- C4 counterexample (the claim as stated is false for transient failures):
a transient enrichment failure at time 0 is attempted and leaves the service
state unchanged, and the very next call one minute later — well inside the
claimed 30-minute window — attempts the external primary path again
(`attempted = true`), instead of taking the fallback path without attempting
the call. -/
theorem transient_failure_no_cooldown :
    (processNewsArticle ⟨false, 0⟩ 0 .transientError).1 = true ∧
    (processNewsArticle ⟨false, 0⟩ 0 .transientError).2 = ⟨false, 0⟩ ∧
    (processNewsArticle ⟨false, 0⟩ 60000 .ok).1 = true := by
  decide

/-- C4 as amended: only a quota-exceeded failure starts the cool-down.  If a
call at time `t` attempts the primary path and gets a quota error, then (a)
the state becomes `⟨true, t⟩`; (b) every subsequent sequence of calls whose
clock values stay within `t + 30 min` is answered by the fallback path with
no primary-path attempt and no state change; (c) a call whose clock has left
the window attempts the primary path again. -/
theorem quota_cooldown_spec (st : OAIState) (t : Nat)
    (hattempt : (processNewsArticle st t .quotaError).1 = true)
    (calls : List (Nat × PrimaryOutcome))
    (hwin : ∀ c ∈ calls, c.1 - t < QUOTA_RESET_INTERVAL)
    (t' : Nat) (hout : QUOTA_RESET_INTERVAL ≤ t' - t) (o : PrimaryOutcome) :
    (processNewsArticle st t .quotaError).2 = ⟨true, t⟩ ∧
    runCalls ⟨true, t⟩ calls = (calls.map (fun _ => false), ⟨true, t⟩) ∧
    (processNewsArticle ⟨true, t⟩ t' o).1 = true := by
  refine ⟨?_, ?_, ?_⟩
  · unfold processNewsArticle at hattempt ⊢
    by_cases hg : (st.quotaExceeded && t - st.lastQuotaCheck < QUOTA_RESET_INTERVAL) = true
    · rw [if_pos hg] at hattempt
      simp at hattempt
    · rw [if_neg hg]
  · induction calls with
    | nil => simp [runCalls]
    | cons c rest ih =>
      have hc : c.1 - t < QUOTA_RESET_INTERVAL := hwin c (List.mem_cons_self c rest)
      have hstep : processNewsArticle ⟨true, t⟩ c.1 c.2 = (false, ⟨true, t⟩) := by
        unfold processNewsArticle
        rw [if_pos (by simpa using hc)]
      have ihr := ih (fun d hd => hwin d (List.mem_cons_of_mem c hd))
      simp only [runCalls, hstep, ihr, List.map_cons]
  · unfold processNewsArticle
    rw [if_neg (by simp; omega)]
    cases o <;> rfl

/-- Witness for the amended C4 at concrete inputs: from a fresh service
state, a quota error at `t = 5` puts the service in cool-down; two calls at
times 10 and 1000 (inside the window) are not attempted and leave the state
alone; a call at `t = 5 + 30 min` is attempted again. -/
theorem quota_cooldown_spec_witness :
    (processNewsArticle ⟨false, 0⟩ 5 .quotaError).2 = ⟨true, 5⟩ ∧
    runCalls ⟨true, 5⟩ [(10, .ok), (1000, .transientError)]
      = ([false, false], ⟨true, 5⟩) ∧
    (processNewsArticle ⟨true, 5⟩ (5 + QUOTA_RESET_INTERVAL) .ok).1 = true := by
  have h := quota_cooldown_spec ⟨false, 0⟩ 5 (by decide)
    [(10, .ok), (1000, .transientError)] (by decide)
    (5 + QUOTA_RESET_INTERVAL) (by omega) .ok
  simpa using h

/-! ## Watchlist removal (`MemStorage.removeFromWatchlist`, C10) -/

/-- `WatchlistItem`: `userId` is nullable in the schema. -/
structure WatchlistItem where
  id : Nat
  userId : Option String
  ticker : String
  addedAt : Nat
deriving DecidableEq

/-- The match test of the removal loop:
`item.userId === userId && item.ticker === ticker` (a `null` stored `userId`
never equals the string argument). -/
def watchMatches (userId ticker : String) (item : WatchlistItem) : Bool :=
  item.userId == some userId && item.ticker == ticker

/-- `MemStorage.removeFromWatchlist`: walk the map entries in insertion
order; delete the first item matching both `userId` and `ticker` and return
`true`; return `false` (collection untouched) if none matches. -/
def removeFromWatchlist (userId ticker : String) :
    List WatchlistItem → Bool × List WatchlistItem
  | [] => (false, [])
  | item :: rest =>
    if watchMatches userId ticker item then (true, rest)
    else
      let rec' := removeFromWatchlist userId ticker rest
      (rec'.1, item :: rec'.2)

/-- C10: `removeFromWatchlist` deletes exactly the first item matching both
`userId` and `ticker` and returns `true` when a match exists (all items
before it do not match and are preserved, as is everything after it); when no
item matches it returns `false` and leaves the collection completely
unchanged. -/
theorem removeFromWatchlist_spec (userId ticker : String)
    (l : List WatchlistItem) :
    (l.any (watchMatches userId ticker) = true →
      (removeFromWatchlist userId ticker l).1 = true ∧
      ∃ pre item post, l = pre ++ item :: post ∧
        watchMatches userId ticker item = true ∧
        (∀ x ∈ pre, watchMatches userId ticker x = false) ∧
        (removeFromWatchlist userId ticker l).2 = pre ++ post) ∧
    (l.any (watchMatches userId ticker) = false →
      removeFromWatchlist userId ticker l = (false, l)) := by
  induction l with
  | nil => simp [removeFromWatchlist]
  | cons item rest ih =>
    by_cases hm : watchMatches userId ticker item = true
    · refine ⟨fun _ => ?_, fun hno => ?_⟩
      · refine ⟨by simp [removeFromWatchlist, hm], [], item, rest, by simp, hm,
          by simp, by simp [removeFromWatchlist, hm]⟩
      · rw [List.any_cons, hm] at hno
        simp at hno
    · have hmf : watchMatches userId ticker item = false := by
        simpa using hm
      refine ⟨fun hany => ?_, fun hno => ?_⟩
      · have hrest : rest.any (watchMatches userId ticker) = true := by
          rw [List.any_cons, hmf] at hany
          simpa using hany
        obtain ⟨h1, pre, it, post, hsplit, hit, hpre, h2⟩ := ih.1 hrest
        refine ⟨by simp [removeFromWatchlist, hmf, h1], item :: pre, it, post,
          by simp [hsplit], hit, ?_, ?_⟩
        · intro x hx
          rcases List.mem_cons.mp hx with hx | hx
          · exact hx ▸ hmf
          · exact hpre x hx
        · simp [removeFromWatchlist, hmf, h2]
      · have hrest : rest.any (watchMatches userId ticker) = false := by
          rw [List.any_cons, hmf] at hno
          simpa using hno
        have := ih.2 hrest
        simp [removeFromWatchlist, hmf, this]

/-- Concrete watchlist entries for the C10 witness. -/
def wlA : WatchlistItem := ⟨0, some "u1", "TCS", 0⟩

def wlB : WatchlistItem := ⟨1, some "u1", "INFY", 1⟩

def wlC : WatchlistItem := ⟨2, some "u2", "INFY", 2⟩

/-- Witness for C10 at concrete inputs, discharging both hypotheses: on
`[wlA, wlB, wlC]`, removing `("u1","INFY")` succeeds (the matching `wlB` is
deleted, `wlA` and `wlC` survive), and removing `("u3","INFY")` fails and
leaves the list untouched. -/
theorem removeFromWatchlist_spec_witness :
    ((removeFromWatchlist "u1" "INFY" [wlA, wlB, wlC]).1 = true ∧
      ∃ pre item post, [wlA, wlB, wlC] = pre ++ item :: post ∧
        watchMatches "u1" "INFY" item = true ∧
        (∀ x ∈ pre, watchMatches "u1" "INFY" x = false) ∧
        (removeFromWatchlist "u1" "INFY" [wlA, wlB, wlC]).2 = pre ++ post) ∧
    removeFromWatchlist "u3" "INFY" [wlA, wlB, wlC] = (false, [wlA, wlB, wlC]) :=
  ⟨(removeFromWatchlist_spec "u1" "INFY" [wlA, wlB, wlC]).1 (by decide),
    (removeFromWatchlist_spec "u3" "INFY" [wlA, wlB, wlC]).2 (by decide)⟩

/-! ## Character-level string primitives

`String.toLower`, `String.split` and friends from the standard library do not
reduce inside the kernel, so the JavaScript string primitives are modelled on
`List Char` directly. -/

/-- Split a character list at every separator satisfying `p`, keeping empty
fragments (JavaScript `split` semantics: `"".split` is `[""]`,
`"a  b".split(' ')` is `["a","","b"]`). -/
def splitCharsWhen (p : Char → Bool) : List Char → List (List Char)
  | [] => [[]]
  | c :: rest =>
    match splitCharsWhen p rest with
    | [] => [[]]
    | w :: ws => if p c then [] :: w :: ws else (c :: w) :: ws

/-- JavaScript `s.split(sep)` for a one-character separator. -/
def jsSplitChar (sep : Char) (s : String) : List String :=
  (splitCharsWhen (fun c => c == sep) s.toList).map String.mk

/-- JavaScript `s.toLowerCase()`. -/
def jsToLower (s : String) : String :=
  String.mk (s.toList.map Char.toLower)

/-- JavaScript `s.toUpperCase()`. -/
def jsToUpper (s : String) : String :=
  String.mk (s.toList.map Char.toUpper)

/-- JavaScript `s.trim()`. -/
def jsTrim (s : String) : String :=
  String.mk
    (((s.toList.dropWhile Char.isWhitespace).reverse.dropWhile
        Char.isWhitespace).reverse)

/-- JavaScript `array.join(' ')`. -/
def joinSpaceSep : List String → String
  | [] => ""
  | [s] => s
  | s :: rest => s ++ " " ++ joinSpaceSep rest

/-! ## Article search (`MemStorage.searchNewsArticles` and the
`/api/news/search` route, C9) -/

/-- The searchable text of an article:
`headline summary tags tickers sectors` joined with spaces, lower-cased. -/
def searchTextOf (a : NewsArticle) : String :=
  jsToLower (a.headline ++ " " ++ a.summary ++ " " ++ joinSpaceSep a.tags
    ++ " " ++ joinSpaceSep a.tickers ++ " " ++ joinSpaceSep a.sectors)

/-- The filter predicate of `searchNewsArticles`: the query is lower-cased
and split on the single space character (`query.toLowerCase().split(' ')`),
and an article matches when its search text contains at least one term
(OR semantics; note consecutive spaces yield empty terms). -/
def matchesQuery (query : String) (a : NewsArticle) : Bool :=
  (jsSplitChar ' ' (jsToLower query)).any
    (fun term => jsIncludes (searchTextOf a) term)

/-- `MemStorage.searchNewsArticles(query, limit = 20)`: filter by
`matchesQuery`, sort newest-first, `slice(0, limit)`. -/
def searchNewsArticles (query : String) (store : NewsStore) (limit : Nat) :
    List NewsArticle :=
  (jsSort byTimestampDesc (store.filter (matchesQuery query))).take limit

/-- Responses of the `/api/news/search` route that the claim talks about. -/
inductive SearchResponse where
  | badRequest
  | ok (articles : List NewsArticle)
deriving DecidableEq

/-- The `/api/news/search` handler: `req.query.q` is `none` when the
parameter is missing; `!query` is also true for the present-but-empty
string, and both answer 400. -/
def searchRoute (store : NewsStore) (q : Option String) : SearchResponse :=
  match q with
  | none => .badRequest
  | some query =>
    if query = "" then .badRequest
    else .ok (searchNewsArticles query store 20)

/-- The claim's reading of "whitespace-delimited terms of q". -/
def wsTerms (q : String) : List String :=
  ((splitCharsWhen Char.isWhitespace q.toList).map String.mk).filter
    (fun w => w ≠ "")

/-- An article whose text contains the word `alpha`, for the C9
counterexample. -/
def artAlpha : NewsArticle :=
  { id := 0, headline := "Alpha beta news", summary := "about markets",
    sourceUrl := "https://ex.com/alpha", imageUrl := none, source := "S",
    timestamp := 1, tags := [], tickers := [], sectors := [],
    isProcessed := true }

/-- C9 counterexample (the claim as stated is false): for the query
`"alpha\tbeta"` (tab-separated), `"alpha"` is one of its
whitespace-delimited terms and is a case-insensitive substring of
`artAlpha`'s search text, so the claim requires `artAlpha` to be returned —
but the code splits the query on the single space character only, keeps the
whole string `"alpha\tbeta"` as its only term, and returns no articles. -/
theorem search_whitespace_counterexample :
    "alpha" ∈ wsTerms "alpha\tbeta" ∧
    jsIncludes (searchTextOf artAlpha) "alpha" = true ∧
    searchNewsArticles "alpha\tbeta" [artAlpha] 20 = [] := by
  refine ⟨by decide, by decide, by decide⟩

/-- C9 as amended: `searchNewsArticles` splits the query on the single space
character (not general whitespace), lower-cases both sides, and returns —
sorted newest-first and capped at 20 — the stored articles whose
concatenated headline/summary/tags/tickers/sectors text contains at least
one of those terms as a substring (OR semantics).  When at most 20 articles
match, the result holds exactly the matching articles.  The
`/api/news/search` route responds 400 when the `q` parameter is missing. -/
theorem searchNewsArticles_spec (query : String) (store : NewsStore)
    (hcount : (store.filter (matchesQuery query)).length ≤ 20) :
    (∀ a, a ∈ searchNewsArticles query store 20 ↔
      a ∈ store ∧ matchesQuery query a = true) ∧
    searchRoute store none = .badRequest := by
  refine ⟨fun a => ?_, rfl⟩
  unfold searchNewsArticles
  rw [List.take_of_length_le (by rw [length_jsSort]; exact hcount)]
  rw [mem_jsSort, List.mem_filter]

/-- Witness for the amended C9 at a concrete input: with the one-article
store `[artAlpha]` and the query `"ALPHA news"`, the article is returned
(its text contains the lower-cased term `alpha`) and the missing-`q` route
answers 400. -/
theorem searchNewsArticles_spec_witness :
    (artAlpha ∈ searchNewsArticles "ALPHA news" [artAlpha] 20 ↔
      artAlpha ∈ [artAlpha] ∧ matchesQuery "ALPHA news" artAlpha = true) ∧
    searchRoute [artAlpha] none = .badRequest :=
  ⟨(searchNewsArticles_spec "ALPHA news" [artAlpha] (by decide)).1 artAlpha,
    (searchNewsArticles_spec "ALPHA news" [artAlpha] (by decide)).2⟩

/-! ## Market data cache (`MarketDataService.getMarketData`, C7 and C8) -/

/-- One tracked index of the snapshot. -/
structure IndexQuote where
  value : String
  change : String
  changePercent : String
  isPositive : Bool
deriving DecidableEq

/-- `MarketData` snapshot.  `lastUpdated` (`new Date().toISOString()` in the
source) is modelled as the millisecond clock value the ISO string renders. -/
structure MarketData where
  nifty50 : IndexQuote
  sensex : IndexQuote
  marketStatus : String
  marketTime : String
  lastUpdated : Nat
deriving DecidableEq

/-- The mutable cache slot of `MarketDataService`. -/
structure MDState where
  cachedData : Option MarketData
  lastFetchTime : Nat
deriving DecidableEq

/-- `CACHE_DURATION = 10000` (10 s TTL). -/
def CACHE_DURATION : Nat := 10000

/-- `Math.round(num * 100) / 100` followed by `Intl.NumberFormat('en-IN')`.
The locale digit grouping is display-only and is modelled as the plain
decimal rendering of the rounded rational; no claim inspects this string on
the live-fetch path. -/
def formatNumber (num : ℚ) : String :=
  toString ((round (num * 100) : ℤ) / (100 : ℚ))

/-- Forced sign prefix on deltas (`change >= 0 ? '+' : ''`). -/
def formatChange (change : ℚ) : String :=
  (if 0 ≤ change then "+" else "") ++ formatNumber change

/-- Forced sign prefix, two decimals, percent sign. -/
def formatChangePercent (changePercent : ℚ) : String :=
  (if 0 ≤ changePercent then "+" else "") ++ formatNumber changePercent ++ "%"

/-- The live quote values of one fetch, after the `?? default` coalescing of
the Yahoo response fields: `regularMarketPrice` and `previousClose` for each
of the two indices. -/
structure QuoteFetch where
  niftyPrice : ℚ
  niftyPrevious : ℚ
  sensexPrice : ℚ
  sensexPrevious : ℚ
deriving DecidableEq

/-- The hardcoded static fallback snapshot of the `catch` branch. -/
def fallbackData (now : Nat) : MarketData :=
  { nifty50 := ⟨"25,330.25", "+91.25", "+0.36%", true⟩,
    sensex := ⟨"82,876.00", "+180.45", "+0.22%", true⟩,
    marketStatus := "OPEN", marketTime := "9:15 AM - 3:30 PM",
    lastUpdated := now }

/-- The `try`/`catch` body of `getMarketData` (fetch miss): on a successful
fetch (`some q`) build the snapshot from the quotes, cache it and stamp
`lastFetchTime`; on a failed fetch (`none`) return the last good cached
snapshot unchanged if one exists, else build the static fallback and cache
it (note: `lastFetchTime` is *not* stamped on the failure path). -/
def getMarketDataFetch (st : MDState) (now : Nat) (fetchResult : Option QuoteFetch) :
    MarketData × MDState :=
  match fetchResult with
  | some q =>
    let niftyChange := q.niftyPrice - q.niftyPrevious
    let sensexChange := q.sensexPrice - q.sensexPrevious
    let marketData : MarketData :=
      { nifty50 :=
          { value := formatNumber q.niftyPrice,
            change := formatChange niftyChange,
            changePercent := formatChangePercent (niftyChange / q.niftyPrevious * 100),
            isPositive := decide (0 ≤ niftyChange) },
        sensex :=
          { value := formatNumber q.sensexPrice,
            change := formatChange sensexChange,
            changePercent := formatChangePercent (sensexChange / q.sensexPrevious * 100),
            isPositive := decide (0 ≤ sensexChange) },
        marketStatus := "OPEN", marketTime := "9:15 AM - 3:30 PM",
        lastUpdated := now }
    (marketData, ⟨some marketData, now⟩)
  | none =>
    match st.cachedData with
    | some d => (d, st)
    | none =>
      let fb := fallbackData now
      (fb, { st with cachedData := some fb })

/-- `MarketDataService.getMarketData` at clock `now`.  The external Yahoo
fetch is abstracted by `fetchResult` (`none` = the fetch threw).  A cache hit
(`cachedData` set and age below the TTL) returns the cached snapshot with a
freshened `lastUpdated` and does not touch the cache. -/
def getMarketData (st : MDState) (now : Nat) (fetchResult : Option QuoteFetch) :
    MarketData × MDState :=
  match st.cachedData with
  | some d =>
    if now - st.lastFetchTime < CACHE_DURATION then
      ({ d with lastUpdated := now }, st)
    else getMarketDataFetch st now fetchResult
  | none => getMarketDataFetch st now fetchResult

/-- C7: starting from the empty cache, a call whose quote fetch fails
returns the hardcoded static fallback snapshot, in which each index's
`isPositive` flag agrees with the `+` sign of its hardcoded `change` string,
and stores that fallback into the cache; a second call whose fetch also
fails (made once the 10 s TTL has passed, so the cache-hit branch is not
taken) returns the cached fallback copy — with the first call's
`lastUpdated` — instead of rebuilding it. -/
theorem getMarketData_fallback_spec (now now2 : Nat)
    (h2 : CACHE_DURATION ≤ now2) :
    (getMarketData ⟨none, 0⟩ now none).1 = fallbackData now ∧
    (getMarketData ⟨none, 0⟩ now none).2
      = ⟨some (fallbackData now), 0⟩ ∧
    ((fallbackData now).nifty50.isPositive
      = startsWithList "+".toList (fallbackData now).nifty50.change.toList) ∧
    ((fallbackData now).sensex.isPositive
      = startsWithList "+".toList (fallbackData now).sensex.change.toList) ∧
    (getMarketData ⟨some (fallbackData now), 0⟩ now2 none).1 = fallbackData now := by
  have hge : ¬ (now2 < CACHE_DURATION) := by
    simp only [CACHE_DURATION] at h2 ⊢
    omega
  refine ⟨rfl, rfl, rfl, rfl, ?_⟩
  simp [getMarketData, getMarketDataFetch, hge]

/-- Witness for C7 at concrete clocks: first failing call at `now = 0`,
second failing call at `now2 = 10000`. -/
theorem getMarketData_fallback_spec_witness :
    (getMarketData ⟨none, 0⟩ 0 none).1 = fallbackData 0 ∧
    (getMarketData ⟨none, 0⟩ 0 none).2 = ⟨some (fallbackData 0), 0⟩ ∧
    ((fallbackData 0).nifty50.isPositive
      = startsWithList "+".toList (fallbackData 0).nifty50.change.toList) ∧
    ((fallbackData 0).sensex.isPositive
      = startsWithList "+".toList (fallbackData 0).sensex.change.toList) ∧
    (getMarketData ⟨some (fallbackData 0), 0⟩ 10000 none).1 = fallbackData 0 :=
  getMarketData_fallback_spec 0 10000 (by decide)

/-- C8: while the cached snapshot's age is below the 10 s TTL, `getMarketData`
leaves the cache untouched and returns the cached snapshot with only
`lastUpdated` replaced by the current clock: two such calls agree with the
cache on `value`/`change`/`changePercent`/`isPositive` (whole index records),
`marketStatus` and `marketTime`, and their `lastUpdated` stamps are the two
call clocks, hence non-decreasing. -/
theorem getMarketData_cache_hit_spec (d : MarketData) (ft now1 now2 : Nat)
    (h1 : now1 - ft < CACHE_DURATION) (h2 : now2 - ft < CACHE_DURATION)
    (h12 : now1 ≤ now2) :
    (getMarketData ⟨some d, ft⟩ now1 none).2 = ⟨some d, ft⟩ ∧
    (getMarketData ⟨some d, ft⟩ now1 none).1.nifty50 = d.nifty50 ∧
    (getMarketData ⟨some d, ft⟩ now1 none).1.sensex = d.sensex ∧
    (getMarketData ⟨some d, ft⟩ now1 none).1.marketStatus = d.marketStatus ∧
    (getMarketData ⟨some d, ft⟩ now1 none).1.marketTime = d.marketTime ∧
    (getMarketData ⟨some d, ft⟩ now2 none).1.nifty50 = d.nifty50 ∧
    (getMarketData ⟨some d, ft⟩ now2 none).1.sensex = d.sensex ∧
    (getMarketData ⟨some d, ft⟩ now2 none).1.marketStatus = d.marketStatus ∧
    (getMarketData ⟨some d, ft⟩ now2 none).1.marketTime = d.marketTime ∧
    (getMarketData ⟨some d, ft⟩ now1 none).1.lastUpdated = now1 ∧
    (getMarketData ⟨some d, ft⟩ now2 none).1.lastUpdated = now2 ∧
    (getMarketData ⟨some d, ft⟩ now1 none).1.lastUpdated
      ≤ (getMarketData ⟨some d, ft⟩ now2 none).1.lastUpdated := by
  have e1 : getMarketData ⟨some d, ft⟩ now1 none
      = ({ d with lastUpdated := now1 }, ⟨some d, ft⟩) := by
    simp [getMarketData, h1]
  have e2 : getMarketData ⟨some d, ft⟩ now2 none
      = ({ d with lastUpdated := now2 }, ⟨some d, ft⟩) := by
    simp [getMarketData, h2]
  rw [e1, e2]
  exact ⟨rfl, rfl, rfl, rfl, rfl, rfl, rfl, rfl, rfl, rfl, rfl, h12⟩

/-- Witness for C8 at concrete inputs: the fallback snapshot cached at fetch
time 100, read at clocks 105 and 9000 (both within the TTL). -/
theorem getMarketData_cache_hit_spec_witness :
    (getMarketData ⟨some (fallbackData 0), 100⟩ 105 none).2
      = ⟨some (fallbackData 0), 100⟩ ∧
    (getMarketData ⟨some (fallbackData 0), 100⟩ 105 none).1.nifty50
      = (fallbackData 0).nifty50 ∧
    (getMarketData ⟨some (fallbackData 0), 100⟩ 105 none).1.sensex
      = (fallbackData 0).sensex ∧
    (getMarketData ⟨some (fallbackData 0), 100⟩ 105 none).1.marketStatus
      = (fallbackData 0).marketStatus ∧
    (getMarketData ⟨some (fallbackData 0), 100⟩ 105 none).1.marketTime
      = (fallbackData 0).marketTime ∧
    (getMarketData ⟨some (fallbackData 0), 100⟩ 9000 none).1.nifty50
      = (fallbackData 0).nifty50 ∧
    (getMarketData ⟨some (fallbackData 0), 100⟩ 9000 none).1.sensex
      = (fallbackData 0).sensex ∧
    (getMarketData ⟨some (fallbackData 0), 100⟩ 9000 none).1.marketStatus
      = (fallbackData 0).marketStatus ∧
    (getMarketData ⟨some (fallbackData 0), 100⟩ 9000 none).1.marketTime
      = (fallbackData 0).marketTime ∧
    (getMarketData ⟨some (fallbackData 0), 100⟩ 105 none).1.lastUpdated = 105 ∧
    (getMarketData ⟨some (fallbackData 0), 100⟩ 9000 none).1.lastUpdated = 9000 ∧
    (getMarketData ⟨some (fallbackData 0), 100⟩ 105 none).1.lastUpdated
      ≤ (getMarketData ⟨some (fallbackData 0), 100⟩ 9000 none).1.lastUpdated :=
  getMarketData_cache_hit_spec (fallbackData 0) 100 105 9000
    (by decide) (by decide) (by decide)

/-! ## Regex replacement chains (`removeUrlsFromText`,
`cleanSummaryForDisplay`, C5)

Each `.replace(/pattern/g, repl)` pass is modelled by a scanner over the
original character list: at every position a pattern-specific matcher is
attempted (receiving the previous character of the original string for `\b`
word-boundary tests); on a match the matched characters are replaced and
scanning resumes after them, exactly as a global JavaScript regex replace
does.  A matcher returns `some k` when it matches `k + 1` characters, so
every match consumes at least one character. -/

/-- A single regex alternative attempted at the current position: arguments
are the character just before the position (in the original string) and the
remaining characters; `some k` means a match of length `k + 1`. -/
abbrev RegexStep := Option Char → List Char → Option Nat

/-- Global replace: leftmost matches, resuming after each match.  Structural
recursion on a fuel bounded by the list length (each match consumes at least
one character, so the fuel never runs out before the input does). -/
def replaceScan (step : RegexStep) (repl : List Char) :
    Nat → Option Char → List Char → List Char
  | 0, _, l => l
  | _ + 1, _, [] => []
  | fuel + 1, prev, c :: rest =>
    match step prev (c :: rest) with
    | some k =>
      repl ++ replaceScan step repl fuel (((c :: rest).take (k + 1)).getLast?)
        (rest.drop k)
    | none => c :: replaceScan step repl fuel (some c) rest

/-- One `.replace(/…/g, repl)` pass. -/
def applyRegex (step : RegexStep) (repl : String) (l : List Char) : List Char :=
  replaceScan step repl.toList l.length none l

/-- The apostrophe character. -/
def squote : Char := Char.ofNat 39

/-- JavaScript regex class `['"\\]`. -/
def isQuoteOrBackslash (c : Char) : Bool :=
  c == squote || c == '"' || c == '\\'

/-- JavaScript regex class `['"]`. -/
def isQuoteChar (c : Char) : Bool :=
  c == squote || c == '"'

/-- JavaScript regex class `\w`. -/
def isWordChar (c : Char) : Bool :=
  c.isAlphanum || c == '_'

/-- Negation of JavaScript `\s`. -/
def isNonSpace (c : Char) : Bool :=
  !c.isWhitespace

/-- `/https?:\/\/[^\s]+/`. -/
def matchHttpUrl : RegexStep := fun _ l =>
  if startsWithList "http".toList l then
    let n : Nat :=
      if startsWithList "s://".toList (l.drop 4) then 8
      else if startsWithList "://".toList (l.drop 4) then 7
      else 0
    if n == 0 then none
    else
      let k := ((l.drop n).takeWhile isNonSpace).length
      if k == 0 then none else some (n + k - 1)
  else none

/-- `/www\.[^\s]+/`. -/
def matchWwwUrl : RegexStep := fun _ l =>
  if startsWithList "www.".toList l then
    let k := ((l.drop 4).takeWhile isNonSpace).length
    if k == 0 then none else some (4 + k - 1)
  else none

/-- `/href="[^"]*"/`. -/
def matchHrefAttr : RegexStep := fun _ l =>
  if startsWithList "href=\"".toList l then
    let k := ((l.drop 6).takeWhile (fun c => c != '"')).length
    if (l.drop (6 + k)).headD ' ' == '"' then some (6 + k) else none
  else none

/-- JavaScript regex class `[a-zA-Z0-9-]`. -/
def isDomainChar (c : Char) : Bool :=
  c.isAlphanum || c == '-'

/-- `/\b[a-zA-Z0-9-]+\.[a-zA-Z]{2,}\b/`.  The leading `\b` holds when
exactly one of (previous char, first matched char) is a word character; the
class runs are maximal (`.` is outside both classes, and shortening the
trailing letter run cannot restore the final `\b`, since the next character
would then be a letter). -/
def matchDomain : RegexStep := fun prev l =>
  match l with
  | [] => none
  | c :: _ =>
    let prevWord := (prev.map isWordChar).getD false
    if isDomainChar c && (prevWord != isWordChar c) then
      let r := (l.takeWhile isDomainChar).length
      match l.drop r with
      | '.' :: tail =>
        let letters := (tail.takeWhile Char.isAlpha).length
        if 2 ≤ letters && !(isWordChar ((tail.drop letters).headD ' ')) then
          some (r + letters)
        else none
      | _ => none
    else none

/-- `/<[^>]*>/`. -/
def matchHtmlTag : RegexStep := fun _ l =>
  match l with
  | '<' :: rest =>
    let k := (rest.takeWhile (fun c => c != '>')).length
    if (rest.drop k).headD ' ' == '>' then some (k + 1) else none
  | _ => none

/-- `/&[a-zA-Z0-9#]+;/`. -/
def matchHtmlEntity : RegexStep := fun _ l =>
  match l with
  | '&' :: rest =>
    let k := (rest.takeWhile (fun c => c.isAlphanum || c == '#')).length
    if k != 0 && (rest.drop k).headD ' ' == ';' then some (k + 1) else none
  | _ => none

/-- `/_blank['"\\]*/`. -/
def matchBlankAttr : RegexStep := fun _ l =>
  if startsWithList "_blank".toList l then
    let k := ((l.drop 6).takeWhile isQuoteOrBackslash).length
    some (5 + k)
  else none

/-- `/\/a\s+/`. -/
def matchBrokenAnchor : RegexStep := fun _ l =>
  if startsWithList "/a".toList l then
    let k := ((l.drop 2).takeWhile Char.isWhitespace).length
    if k == 0 then none else some (1 + k)
  else none

/-- `/font\s+color[^>]*>/`. -/
def matchFontColorTag : RegexStep := fun _ l =>
  if startsWithList "font".toList l then
    let w := ((l.drop 4).takeWhile Char.isWhitespace).length
    if w == 0 then none
    else if startsWithList "color".toList (l.drop (4 + w)) then
      let k := ((l.drop (9 + w)).takeWhile (fun c => c != '>')).length
      if (l.drop (9 + w + k)).headD ' ' == '>' then some (9 + w + k) else none
    else none
  else none

/-- `/color=['"#\w]*['"]?/` (the optional trailing quote is absorbed by the
greedy class run, which already contains both quote characters). -/
def matchColorAttr : RegexStep := fun _ l =>
  if startsWithList "color=".toList l then
    let k := ((l.drop 6).takeWhile
      (fun c => isQuoteChar c || c == '#' || isWordChar c)).length
    some (5 + k)
  else none

/-- `/target=['"_\w]*['"]?/` (same remark as for `color=`; `_` is already a
word character). -/
def matchTargetAttr : RegexStep := fun _ l =>
  if startsWithList "target=".toList l then
    let k := ((l.drop 7).takeWhile (fun c => isQuoteChar c || isWordChar c)).length
    some (6 + k)
  else none

/-- `/['"\\]{2,}/`. -/
def matchQuoteRun : RegexStep := fun _ l =>
  let k := (l.takeWhile isQuoteOrBackslash).length
  if 2 ≤ k then some (k - 1) else none

/-- `/\s+/`. -/
def matchSpaceRun : RegexStep := fun _ l =>
  let k := (l.takeWhile Char.isWhitespace).length
  if k == 0 then none else some (k - 1)

/-- `OpenAIService.removeUrlsFromText`: the thirteen `.replace(/…/g, …)`
passes in source order, followed by `.trim()`. -/
def removeUrlsFromText (text : String) : String :=
  let l := text.toList
  let l := applyRegex matchHttpUrl "" l
  let l := applyRegex matchWwwUrl "" l
  let l := applyRegex matchHrefAttr "" l
  let l := applyRegex matchDomain "" l
  let l := applyRegex matchHtmlTag "" l
  let l := applyRegex matchHtmlEntity " " l
  let l := applyRegex matchBlankAttr "" l
  let l := applyRegex matchBrokenAnchor " " l
  let l := applyRegex matchFontColorTag "" l
  let l := applyRegex matchColorAttr "" l
  let l := applyRegex matchTargetAttr "" l
  let l := applyRegex matchQuoteRun " " l
  let l := applyRegex matchSpaceRun " " l
  jsTrim (String.mk l)

example : removeUrlsFromText "Read https://a.io/x now" = "Read now" := by decide

example : removeUrlsFromText "see example.com today" = "see today" := by decide

/-- `/nbsp;?/`. -/
def matchNbsp : RegexStep := fun _ l =>
  if startsWithList "nbsp".toList l then
    if (l.drop 4).headD ' ' == ';' then some 4 else some 3
  else none

/-- `/font\s+[^>]*>/`. -/
def matchFontTag : RegexStep := fun _ l =>
  if startsWithList "font".toList l then
    let w := ((l.drop 4).takeWhile Char.isWhitespace).length
    if w == 0 then none
    else
      let k := ((l.drop (4 + w)).takeWhile (fun c => c != '>')).length
      if (l.drop (4 + w + k)).headD ' ' == '>' then some (4 + w + k) else none
  else none

/-- `/\/font\s*/`. -/
def matchFontClose : RegexStep := fun _ l =>
  if startsWithList "/font".toList l then
    let k := ((l.drop 5).takeWhile Char.isWhitespace).length
    some (4 + k)
  else none

/-- `/\bfont\b/`. -/
def matchFontWord : RegexStep := fun prev l =>
  let prevWord := (prev.map isWordChar).getD false
  if !prevWord && startsWithList "font".toList l
      && !(isWordChar ((l.drop 4).headD ' ')) then
    some 3
  else none

/-- `/href=['"]*[^'"]*['"]*/` (all three class runs may be empty, so the
bare `href=` already matches). -/
def matchHrefLoose : RegexStep := fun _ l =>
  if startsWithList "href=".toList l then
    let k1 := ((l.drop 5).takeWhile isQuoteChar).length
    let k2 := ((l.drop (5 + k1)).takeWhile (fun c => !isQuoteChar c)).length
    let k3 := ((l.drop (5 + k1 + k2)).takeWhile isQuoteChar).length
    some (4 + k1 + k2 + k3)
  else none

/-- `/^\s*a\s+/` — anchored, so it applies at most once, at the start. -/
def stripLeadingA (l : List Char) : List Char :=
  let w := (l.takeWhile Char.isWhitespace).length
  match l.drop w with
  | 'a' :: rest =>
    let k := (rest.takeWhile Char.isWhitespace).length
    if k == 0 then l else rest.drop k
  | _ => l

/-- The sentence `cleanSummaryForDisplay` appends when the cleaned summary
has fewer than 60 words longer than two characters. -/
def displayPadding : String :=
  ". This financial development represents a significant market movement that could impact investor sentiment and trading patterns in the Indian stock markets. Market analysts are closely monitoring the situation as it unfolds, with potential implications for related sectors and companies listed on NSE and BSE. The news comes at a time when Indian financial markets continue to show resilience and adaptation to global economic trends."

/-- `MemStorage.cleanSummaryForDisplay`: the fourteen display-time
`.replace` passes in source order, `.trim()`, then the minimum-word-count
padding (`split(/\s+/).filter(w => w.length > 2)`, append when fewer than
60). -/
def cleanSummaryForDisplay (summary : String) : String :=
  let l := summary.toList
  let l := applyRegex matchHtmlTag "" l
  let l := applyRegex matchHtmlEntity " " l
  let l := applyRegex matchNbsp " " l
  let l := applyRegex matchBlankAttr "" l
  let l := applyRegex matchBrokenAnchor " " l
  let l := applyRegex matchFontTag "" l
  let l := applyRegex matchFontClose "" l
  let l := applyRegex matchFontWord "" l
  let l := applyRegex matchColorAttr "" l
  let l := applyRegex matchTargetAttr "" l
  let l := applyRegex matchHrefLoose "" l
  let l := applyRegex matchQuoteRun " " l
  let l := stripLeadingA l
  let l := applyRegex matchSpaceRun " " l
  let cleaned := jsTrim (String.mk l)
  let words := (splitCharsWhen Char.isWhitespace cleaned.toList).filter
    (fun w => 2 < w.length)
  if words.length < 60 then cleaned ++ displayPadding else cleaned

set_option maxRecDepth 40000 in
/-- C5 (refuting the claim on the code): neither cleaner is idempotent.
For `removeUrlsFromText`, the input `"ab<z>.com"` survives the domain pass
(the `<z>` tag breaks the domain pattern) and the tag pass then produces
`"ab.com"` — which the domain pass of a second application deletes entirely,
leaving `""`.  For `cleanSummaryForDisplay`, the empty summary is padded to
`displayPadding`, whose 55 substantive words are still below the 60-word
threshold, so a second application appends the padding again. -/
theorem cleaners_not_idempotent :
    removeUrlsFromText "ab<z>.com" = "ab.com" ∧
    removeUrlsFromText (removeUrlsFromText "ab<z>.com") = "" ∧
    removeUrlsFromText (removeUrlsFromText "ab<z>.com")
      ≠ removeUrlsFromText "ab<z>.com" ∧
    cleanSummaryForDisplay "" = displayPadding ∧
    cleanSummaryForDisplay (cleanSummaryForDisplay "")
      = displayPadding ++ displayPadding ∧
    cleanSummaryForDisplay (cleanSummaryForDisplay "")
      ≠ cleanSummaryForDisplay "" := by
  refine ⟨by decide, by decide, by decide, by decide, ?_, ?_⟩
  · decide
  · decide

/-! ## Fallback enrichment (`OpenAIService.getFallbackProcessing`, C6) -/

/-- The `companyToTicker` dictionary (object-literal insertion order). -/
def companyToTicker : List (String × String) := [
  ("tcs", "TCS"), ("tata consultancy", "TCS"), ("infosys", "INFY"),
  ("wipro", "WIPRO"), ("hcl", "HCLTECH"), ("tech mahindra", "TECHM"),
  ("mindtree", "MINDTREE"),
  ("hdfc", "HDFCBANK"), ("icici", "ICICIBANK"), ("sbi", "SBIN"),
  ("state bank", "SBIN"), ("axis", "AXISBANK"), ("kotak", "KOTAKBANK"),
  ("yes bank", "YESBANK"), ("indusind", "INDUSINDBK"),
  ("bajaj finance", "BAJFINANCE"), ("lic", "LICI"),
  ("reliance", "RELIANCE"), ("ril", "RELIANCE"), ("ongc", "ONGC"),
  ("bpcl", "BPCL"), ("ioc", "IOC"), ("ntpc", "NTPC"),
  ("coal india", "COALINDIA"), ("power grid", "POWERGRID"),
  ("tata motors", "TATAMOTORS"), ("maruti", "MARUTI"),
  ("bajaj auto", "BAJAJ-AUTO"), ("hero motocorp", "HEROMOTOCO"),
  ("mahindra", "M&M"), ("eicher", "EICHERMOT"),
  ("itc", "ITC"), ("hindustan unilever", "HINDUNILVR"), ("hul", "HINDUNILVR"),
  ("nestle", "NESTLEIND"), ("britannia", "BRITANNIA"), ("godrej", "GODREJCP"),
  ("tata steel", "TATASTEEL"), ("jsl", "JSL"), ("hindalco", "HINDALCO"),
  ("vedanta", "VEDL"), ("jsw steel", "JSWSTEEL"), ("sail", "SAIL"),
  ("sun pharma", "SUNPHARMA"), ("dr reddy", "DRREDDY"), ("cipla", "CIPLA"),
  ("lupin", "LUPIN"), ("biocon", "BIOCON"), ("aurobindo", "AUROPHARMA"),
  ("bharti airtel", "BHARTIARTL"), ("airtel", "BHARTIARTL"),
  ("vodafone idea", "IDEA"),
  ("ultratech", "ULTRACEMCO"), ("acc", "ACC"), ("ambuja", "AMBUJACEM"),
  ("grasim", "GRASIM"),
  ("adani enterprises", "ADANIENT"), ("adani ports", "ADANIPORTS"),
  ("adani power", "ADANIPOWER"), ("adani green", "ADANIGREEN"),
  ("adani transmission", "ADANITRANS"),
  ("asian paints", "ASIANPAINT"), ("titan", "TITAN"), ("l&t", "LT"),
  ("larsen", "LT")]

/-- The `directTickers` list. -/
def directTickers : List String := [
  "RELIANCE", "TCS", "HDFCBANK", "INFY", "HINDUNILVR", "ICICIBANK", "SBIN",
  "BHARTIARTL", "ITC", "KOTAKBANK", "LT", "ASIANPAINT", "AXISBANK", "MARUTI",
  "SUNPHARMA", "TITAN", "ULTRACEMCO", "WIPRO", "NESTLEIND", "POWERGRID",
  "BAJFINANCE", "HCLTECH", "DRREDDY", "TATAMOTORS", "ADANIPORTS",
  "INDUSINDBK", "BAJAJFINSV", "TECHM", "JSWSTEEL", "TATASTEEL", "COALINDIA",
  "NTPC", "ONGC", "BPCL", "IOC", "M&M", "HEROMOTOCO", "EICHERMOT",
  "BRITANNIA", "GODREJCP", "VEDL", "SAIL", "LUPIN", "BIOCON", "CIPLA",
  "AUROPHARMA", "IDEA", "ACC", "AMBUJACEM", "GRASIM", "ADANIENT",
  "ADANIPOWER", "ADANIGREEN"]

/-- `OpenAIService.extractTickersFromText`: company-name hits (in dictionary
order) followed by direct ticker hits (the second disjunct checks for the
mojibake rupee prefix exactly as the source writes it), deduplicated through
a `Set` keeping first occurrences, capped at 6. -/
def extractTickersFromText (text : String) : List String :=
  let lowerText := jsToLower text
  let fromCompanies := (companyToTicker.filter
    (fun p => jsIncludes lowerText p.1)).map (fun p => p.2)
  let upperText := jsToUpper text
  let fromDirect := directTickers.filter
    (fun t => jsIncludes upperText t || jsIncludes upperText ("â‚¹" ++ t))
  (dedupByAux (fun s => s) [] (fromCompanies ++ fromDirect)).take 6

/-- The `sectorKeywords` dictionary. -/
def sectorKeywords : List (String × List String) := [
  ("IT Services", ["software", "technology", "IT", "tech", "digital", "cloud"]),
  ("Banking", ["bank", "banking", "financial services", "HDFC", "ICICI", "SBI"]),
  ("Energy", ["oil", "gas", "refining", "petrochemical", "energy"]),
  ("Pharma", ["pharma", "pharmaceutical", "drug", "medicine", "FDA"]),
  ("Automotive", ["auto", "car", "vehicle", "motor", "EV", "electric vehicle"]),
  ("FMCG", ["consumer goods", "FMCG", "retail", "consumer"]),
  ("Telecom", ["telecom", "mobile", "5G", "spectrum", "communication"]),
  ("Metals", ["steel", "aluminum", "metal", "mining", "copper"])]

/-- `OpenAIService.extractSectorsFromText`. -/
def extractSectorsFromText (text : String) : List String :=
  let lowerText := jsToLower text
  (sectorKeywords.filter (fun p =>
    p.2.any (fun kw => jsIncludes lowerText (jsToLower kw)))).map (fun p => p.1)

/-- The two cleaning passes shared by `createDetailedSummary`:
`.replace(/['"\\]{2,}/g, ' ').replace(/\s+/g, ' ').trim()`. -/
def normalizeQuotesWs (s : String) : String :=
  jsTrim (String.mk (applyRegex matchSpaceRun " "
    (applyRegex matchQuoteRun " " s.toList)))

/-- `commonCompanyIndicators` of `extractCompanyName`. -/
def commonCompanyIndicators : List String :=
  ["Limited", "Ltd", "Industries", "Bank", "Corp", "Company", "Inc"]

/-- The indicator loop of `extractCompanyName`: the first index `i` such that
`words[i + 1]` contains a company indicator. -/
def companyScanIdx : List String → Nat → Option Nat
  | _w0 :: w1 :: rest, i =>
    if commonCompanyIndicators.any (fun ind => jsIncludes w1 ind) then some i
    else companyScanIdx (w1 :: rest) (i + 1)
  | _, _ => none

/-- JavaScript regex class `[A-Za-z\s]`. -/
def nseClassChar (c : Char) : Bool :=
  c.isAlpha || c.isWhitespace

/-- The capture of `/([A-Za-z\s]+)\s*\(NSE:/` at the leftmost match: the
maximal letters-and-spaces run that ends directly at `(NSE:`. -/
def findNseCapture : List Char → Option (List Char)
  | [] => none
  | c :: rest =>
    if nseClassChar c then
      let run := (c :: rest).takeWhile nseClassChar
      if startsWithList "(NSE:".toList ((c :: rest).drop run.length) then some run
      else findNseCapture rest
    else findNseCapture rest

/-- `OpenAIService.extractCompanyName`. -/
def extractCompanyName (title : String) : String :=
  let words := jsSplitChar ' ' title
  match companyScanIdx words 0 with
  | some i => joinSpaceSep (words.take (i + 2))
  | none =>
    match (if jsIncludes title "NSE:" then findNseCapture title.toList
      else none) with
    | some run => jsTrim (String.mk run)
    | none =>
      let fb := joinSpaceSep (words.take 3)
      if fb == "" then "The company" else fb

/-- The capture of `/(\d+)%/` at the leftmost match: the maximal digit run
that ends directly at a percent sign. -/
def findPercentCapture : List Char → Option (List Char)
  | [] => none
  | c :: rest =>
    if c.isDigit then
      let run := (c :: rest).takeWhile Char.isDigit
      if ((c :: rest).drop run.length).headD ' ' == '%' then some run
      else findPercentCapture rest
    else findPercentCapture rest

/-- `OpenAIService.extractPerformanceData`. -/
def extractPerformanceData (title : String) : String :=
  let percentRes : Option String :=
    if jsIncludes title "%" then
      match findPercentCapture title.toList with
      | some run => some (String.mk run ++ "% positive")
      | none => none
    else none
  match percentRes with
  | some s => s
  | none =>
    if jsIncludes title "up" || jsIncludes title "gain" then "strong positive"
    else if jsIncludes title "down" || jsIncludes title "fall" then "declining"
    else "notable"

/-- `OpenAIService.generatePerformanceSummary`. -/
def generatePerformanceSummary (title : String) : String :=
  extractCompanyName title ++ " has shown " ++ extractPerformanceData title
    ++ " performance in recent trading sessions. This reflects the company\x27s strong fundamentals and market positioning amid broader Indian market trends. Investors are taking note of the sustained growth trajectory, which indicates robust business operations and effective management strategies. The performance comes at a time when the Indian stock market is experiencing varied movements across different sectors. Market analysts suggest that such performance metrics are key indicators for future investment decisions and portfolio allocations in the Indian equity markets."

/-- `OpenAIService.generateIPOSummary`. -/
def generateIPOSummary (title : String) : String :=
  extractCompanyName title ++ " is generating significant investor interest in the Indian capital markets. The company\x27s public market debut represents an important milestone in India\x27s growing IPO landscape. Market participants are closely evaluating the company\x27s business model, financial performance, and growth prospects before making investment decisions. This development is part of the broader trend of Indian companies accessing public capital to fund expansion and growth initiatives. The IPO market in India continues to attract both retail and institutional investors seeking exposure to emerging business opportunities across various sectors."

/-- `OpenAIService.generateEarningsSummary`. -/
def generateEarningsSummary (title : String) : String :=
  extractCompanyName title ++ " is set to announce its quarterly financial results, providing crucial insights into the company\x27s operational performance and market position. Investors and analysts are keenly awaiting these earnings to assess revenue growth, profitability margins, and future guidance from the management team. The quarterly results will offer valuable data points for evaluating the company\x27s competitive standing within its sector and overall contribution to the Indian economy. These earnings announcements are critical for informed investment decisions and market sentiment assessment in the current financial landscape."

/-- `OpenAIService.generateCorporateSummary`. -/
def generateCorporateSummary (title : String) : String :=
  extractCompanyName title ++ " is under spotlight regarding corporate governance and executive compensation structures. This development highlights the ongoing focus on transparent corporate practices and shareholder value creation in Indian companies. The matter reflects broader discussions about executive compensation frameworks and their alignment with company performance and shareholder interests. Such corporate governance issues are increasingly important for institutional investors and stakeholders who prioritize sustainable business practices and ethical management in their investment strategies across Indian markets."

/-- `OpenAIService.generateVisaSummary` (a fixed text; the title is unused in
the source as well). -/
def generateVisaSummary (_title : String) : String :=
  "The H-1B visa fee changes are creating significant implications for Indian technology companies and professionals working in the United States. This policy shift is expected to impact the operational costs and business strategies of major Indian IT services companies that rely heavily on skilled workforce mobility. The development comes at a crucial time for India-US business relationships and could influence talent acquisition, project execution, and client servicing models. Indian IT companies are likely to reassess their workforce strategies and potentially accelerate domestic hiring and capability building to mitigate the impact of these regulatory changes."

/-- `OpenAIService.generatePolicySummary` (fixed text). -/
def generatePolicySummary (_title : String) : String :=
  "The latest policy developments are set to create meaningful changes across various sectors of the Indian economy. These regulatory shifts reflect the government\x27s commitment to economic reforms and business environment improvements. Companies and investors are closely monitoring these policy changes to understand their implications on operational costs, compliance requirements, and market opportunities. The implementation of such policies typically requires strategic adjustments from businesses to maintain competitiveness while ensuring regulatory compliance. These developments are part of India\x27s broader economic modernization efforts aimed at enhancing ease of doing business and promoting sustainable growth."

/-- `OpenAIService.generateGeneralSummary`. -/
def generateGeneralSummary (title : String) : String :=
  extractCompanyName title ++ " is making headlines in the Indian financial markets with this significant development. The news represents an important milestone that could influence investor sentiment and market dynamics within the relevant sector. Market participants are analyzing the potential implications of this development on the company\x27s future prospects and its competitive positioning. This type of corporate news often serves as a catalyst for broader market discussions about sector trends, investment opportunities, and risk assessment strategies. The development adds to the ongoing narrative of growth and transformation within Indian businesses and capital markets."

/-- `OpenAIService.createDetailedSummary`: clean the title, then dispatch on
its keywords.  (`cleanContent`, `summaryContent` and `titleWords` are
computed by the source but never used — the returned summary depends only on
the cleaned title — so they are omitted.) -/
def createDetailedSummary (description title : String) : String :=
  let _cleanContent := normalizeQuotesWs description
  let cleanTitle := normalizeQuotesWs title
  if jsIncludes cleanTitle "%" || jsIncludes cleanTitle "gain"
      || jsIncludes cleanTitle "up" || jsIncludes cleanTitle "return" then
    generatePerformanceSummary cleanTitle
  else if jsIncludes cleanTitle "IPO" || jsIncludes cleanTitle "listing"
      || jsIncludes cleanTitle "watchlist" then
    generateIPOSummary cleanTitle
  else if jsIncludes cleanTitle "earnings" || jsIncludes cleanTitle "results"
      || jsIncludes cleanTitle "quarter" || jsIncludes cleanTitle "Q2"
      || jsIncludes cleanTitle "Q3" then
    generateEarningsSummary cleanTitle
  else if jsIncludes cleanTitle "CEO" || jsIncludes cleanTitle "compensation"
      || jsIncludes cleanTitle "executive" then
    generateCorporateSummary cleanTitle
  else if jsIncludes cleanTitle "H-1B" || jsIncludes cleanTitle "visa"
      || jsIncludes cleanTitle "fee" then
    generateVisaSummary cleanTitle
  else if jsIncludes cleanTitle "GST" || jsIncludes cleanTitle "policy"
      || jsIncludes cleanTitle "government" then
    generatePolicySummary cleanTitle
  else
    generateGeneralSummary cleanTitle

/-- `OpenAIService.getFallbackProcessing`: headline is the trimmed title or
the generic placeholder when blank (`title.trim() || "Market News Update"`);
the summary is synthesized from the URL-stripped description and the title;
tickers and sectors come from the keyword extractors; tags default empty. -/
def getFallbackProcessing (title description : String) : ProcessedNews :=
  let cleanTitle := if jsTrim title == "" then "Market News Update"
    else jsTrim title
  let cleanDescription := if description == "" then
      (if title == "" then "Financial news article" else title)
    else description
  let cleanDescription := removeUrlsFromText cleanDescription
  let cleanDescription := createDetailedSummary cleanDescription cleanTitle
  { headline := cleanTitle,
    summary := cleanDescription,
    tickers := extractTickersFromText (title ++ " " ++ description),
    sectors := extractSectorsFromText (title ++ " " ++ description),
    tags := [] }

/-- A string with a non-empty right append component is non-empty. -/
theorem append_ne_empty_of_right (a b : String) (h : b ≠ "") : a ++ b ≠ "" := by
  intro hc
  apply h
  have hd := congrArg String.data hc
  rw [String.data_append] at hd
  simp only [List.append_eq_nil] at hd
  cases b
  simp_all

theorem generatePerformanceSummary_ne_empty (t : String) :
    generatePerformanceSummary t ≠ "" := by
  unfold generatePerformanceSummary
  exact append_ne_empty_of_right _ _ (by decide)

theorem generateIPOSummary_ne_empty (t : String) :
    generateIPOSummary t ≠ "" := by
  unfold generateIPOSummary
  exact append_ne_empty_of_right _ _ (by decide)

theorem generateEarningsSummary_ne_empty (t : String) :
    generateEarningsSummary t ≠ "" := by
  unfold generateEarningsSummary
  exact append_ne_empty_of_right _ _ (by decide)

theorem generateCorporateSummary_ne_empty (t : String) :
    generateCorporateSummary t ≠ "" := by
  unfold generateCorporateSummary
  exact append_ne_empty_of_right _ _ (by decide)

theorem generateVisaSummary_ne_empty (t : String) :
    generateVisaSummary t ≠ "" := by
  unfold generateVisaSummary
  decide

theorem generatePolicySummary_ne_empty (t : String) :
    generatePolicySummary t ≠ "" := by
  unfold generatePolicySummary
  decide

theorem generateGeneralSummary_ne_empty (t : String) :
    generateGeneralSummary t ≠ "" := by
  unfold generateGeneralSummary
  exact append_ne_empty_of_right _ _ (by decide)

theorem createDetailedSummary_ne_empty (d t : String) :
    createDetailedSummary d t ≠ "" := by
  unfold createDetailedSummary
  dsimp only
  split
  · exact generatePerformanceSummary_ne_empty _
  · split
    · exact generateIPOSummary_ne_empty _
    · split
      · exact generateEarningsSummary_ne_empty _
      · split
        · exact generateCorporateSummary_ne_empty _
        · split
          · exact generateVisaSummary_ne_empty _
          · split
            · exact generatePolicySummary_ne_empty _
            · exact generateGeneralSummary_ne_empty _

theorem dedupBy_id_nodup (l : List String) :
    (dedupByAux (fun s => s) [] l).Nodup := by
  have h := dedupByAux_nodup (fun s : String => s) [] l
  rwa [List.map_id'] at h

theorem extractTickersFromText_spec (text : String) :
    (extractTickersFromText text).length ≤ 6 ∧
    (extractTickersFromText text).Nodup := by
  unfold extractTickersFromText
  dsimp only
  exact ⟨List.length_take_le 6 _,
    (List.take_sublist 6 _).nodup (dedupBy_id_nodup _)⟩

/-- C6: the fallback enrichment result always has the trimmed original title
as headline (or the generic placeholder `"Market News Update"` when the
trimmed title is blank), hence a non-empty headline; a non-empty summary;
and a ticker list of length at most 6 without duplicates. -/
theorem getFallbackProcessing_spec (title description : String) :
    (getFallbackProcessing title description).headline
      = (if jsTrim title == "" then "Market News Update" else jsTrim title) ∧
    (getFallbackProcessing title description).headline ≠ "" ∧
    (getFallbackProcessing title description).summary ≠ "" ∧
    (getFallbackProcessing title description).tickers.length ≤ 6 ∧
    (getFallbackProcessing title description).tickers.Nodup := by
  unfold getFallbackProcessing
  dsimp only
  refine ⟨rfl, ?_, createDetailedSummary_ne_empty _ _,
    (extractTickersFromText_spec _).1, (extractTickersFromText_spec _).2⟩
  by_cases hb : (jsTrim title == "") = true
  · rw [if_pos hb]
    decide
  · rw [if_neg hb]
    simpa using hb
